import Mathlib

/-!
Shallow embedding of the media-acquisition pipeline of the
`astrbot_plugin_media_parser` repository, together with proofs of the
behavioural claims about it.

Strings from the Python source are modelled as `List Char` (so that every
definition evaluates inside the kernel); sizes in megabytes are modelled as
rationals (`ℚ`) — all size comparisons in the source are order comparisons of
finite decimal values, which ℚ models exactly.  Network and filesystem effects
are modelled by explicit outcome oracles passed as arguments: an oracle value
describes what the environment answered, and the definitions reproduce what
the Python code does with that answer.
-/

/-- ASCII case folding of one character, as Python `str.lower` acts on the
ASCII range (all URLs handled by the plugin are ASCII). -/
def pyLowerChar (c : Char) : Char :=
  if 'A' ≤ c ∧ c ≤ 'Z' then Char.ofNat (c.toNat + 32) else c

/-- Python `s.lower()` on an ASCII string. -/
def pyLower (s : List Char) : List Char := s.map pyLowerChar

/-- Python substring containment `pat in s` (contiguous substring). -/
def containsSub (pat s : List Char) : Bool := decide (pat <:+: s)

/-- Python `s.endswith(suffix)`. -/
def endsWithStr (suffix s : List Char) : Bool := List.isSuffixOf suffix s

/-- `s.split(sep)[0]` for a one-character separator: everything before the
first occurrence of `sep`. -/
def splitHead (sep : Char) (s : List Char) : List Char := s.takeWhile (· ≠ sep)

/- ------------------------------------------------------------------
src/core/downloader/router.py — `detect_media_type`
------------------------------------------------------------------ -/

/-- The image extension list of `detect_media_type` (router.py line 23). -/
def imageExts : List (List Char) :=
  ["jpg", "jpeg", "png", "gif", "webp", "bmp", "svg"].map String.toList

/-- The video extension list of `detect_media_type` (router.py line 24). -/
def videoExts : List (List Char) :=
  ["mp4", "mkv", "mov", "avi", "flv", "f4v", "webm", "wmv", "m4v"].map String.toList

/-- Extension alternatives of the image fallback regex
`[._!-](jpg|jpeg|png|gif|webp|bmp|svg)(_|\d|$)` (router.py line 36). -/
def imagePatternExts : List (List Char) := imageExts

/-- Extension alternatives of the video fallback regex
`[._!-](mp4|mkv|mov|avi|flv|f4v|webm|wmv|m4v|3gp|ts)(_|\d|$)` (router.py line 40). -/
def videoPatternExts : List (List Char) :=
  videoExts ++ ["3gp".toList, "ts".toList]

/-- One extension test of the first matching stage (router.py lines 29-33):
`url_lower.endswith('.ext')`, or `'.ext?' in url_lower`, or `url_path`
ends in the bare token `ext` not preceded by a letter.  The two Python `if`
statements both return the same media type, so their disjunction is taken. -/
def extCheck (url_lower url_path ext : List Char) : Bool :=
  endsWithStr ('.' :: ext) url_lower ||
  containsSub ('.' :: ext ++ ['?']) url_lower ||
  (endsWithStr ext url_path &&
    (url_path.length == ext.length ||
      !(url_path.getD (url_path.length - ext.length - 1) ' ').isAlpha))

/-- Tail of the fallback regex after the extension token: `(_|\d|$)`
(`\d` restricted to ASCII digits, which is all that occurs in URLs). -/
def tokenTailOk (rest : List Char) : Bool :=
  match rest with
  | [] => true
  | c :: _ => c == '_' || c.isDigit

/-- Whether one regex alternative `ext` matches starting right after a
separator character: `rest` starts with `ext` followed by `_`, a digit, or
the end of the string. -/
def tokenAfterSep (ext rest : List Char) : Bool :=
  ext.isPrefixOf rest && tokenTailOk (rest.drop ext.length)

/-- `re.search` of the fallback pattern `[._!-](e1|e2|...)(_|\d|$)`: scan for
any position holding a separator followed by a matching alternative. -/
def tokenSearch (exts : List (List Char)) : List Char → Bool
  | [] => false
  | c :: rest =>
    ((c == '.' || c == '_' || c == '!' || c == '-') &&
      exts.any (fun e => tokenAfterSep e rest)) ||
    tokenSearch exts rest

/-- `detect_media_type` (router.py lines 12-51).  Returns one of
`"m3u8"`, `"image"`, `"video"`.  The Python loop walks the `media_types`
dict in insertion order (image extensions first, then video), returning on
the first extension that matches either condition; this equals testing all
image extensions, then all video extensions. -/
def detect_media_type (url : List Char) : String :=
  if url = [] then "video"
  else
    let url_lower := pyLower url
    let url_path := splitHead '#' (splitHead '?' url_lower)
    if containsSub ".m3u8".toList url_lower then "m3u8"
    else if imageExts.any (extCheck url_lower url_path) then "image"
    else if videoExts.any (extCheck url_lower url_path) then "video"
    else if tokenSearch imagePatternExts url_lower then "image"
    else if tokenSearch videoPatternExts url_lower then "video"
    else "video"

/- ------------------------------------------------------------------
src/core/downloader.py — `pre_download_media` and `download_media_to_cache`
------------------------------------------------------------------ -/

/-- A media item handed to `pre_download_media` (download_manager.py
`_build_media_items`, lines 91-126): single candidate URL (`None` when the
`url` key maps to a missing value), media id, positional index, kind flag.
Headers / referer / proxy are opaque pass-through values and are omitted. -/
structure MediaItem where
  url : Option (List Char)
  media_id : List Char
  index : ℕ
  is_video : Bool
deriving DecidableEq, Inhabited

/-- The result dict produced by `pre_download_media` per job (downloader.py
lines 301-337, 344-363).  The Python dicts sometimes omit the `error` key;
consumers read it with `.get`, so an absent key and `None` coincide. -/
structure DownloadResult where
  url : Option (List Char)
  file_path : Option (List Char)
  success : Bool
  index : ℕ
  error : Option (List Char)
deriving DecidableEq, Inhabited

/-- What the environment did to one `download_one` job of
`pre_download_media` (downloader.py lines 289-337):
* `escaped msg` — a `BaseException` (cancellation) escaped `download_one`
  past its `except Exception` clause and is seen by `asyncio.gather`;
* `raised msg` — an `Exception` was raised inside the `try` body and is
  caught at line 327;
* `fetched fp` — `download_media_to_cache` returned normally with `fp`
  (`None` on its own caught failures). -/
inductive JobOutcome
  | escaped (msg : List Char)
  | raised (msg : List Char)
  | fetched (fp : Option (List Char))
deriving DecidableEq, Inhabited

/-- Python truthiness of the `url` value: `None` and `''` are falsy. -/
def urlFalsy : Option (List Char) → Bool
  | none => true
  | some s => s = []

/-- `download_one` inside `pre_download_media` (downloader.py lines 289-337),
as a function of its job's environment outcome.  It never lets an
`Exception` escape: a raised exception becomes a structured failure dict. -/
def download_one (item : MediaItem) (o : JobOutcome) : Except (List Char) DownloadResult :=
  match o with
  | .escaped m => .error m
  | .raised m =>
    .ok { url := item.url, file_path := none, success := false, index := item.index, error := some m }
  | .fetched fp =>
    if urlFalsy item.url then
      .ok { url := item.url, file_path := none, success := false, index := item.index, error := none }
    else
      .ok { url := item.url, file_path := fp, success := fp.isSome, index := item.index, error := none }

/-- The result post-processing loop of `pre_download_media` (downloader.py
lines 342-364) applied to the i-th gathered result: an exception at the
gather level is converted into a failure dict built from `media_items[i]`
(or from `{}` when `i` is out of range). -/
def processOne (items : List MediaItem) (i : ℕ) (r : Except (List Char) DownloadResult) :
    DownloadResult :=
  match r with
  | .ok d => d
  | .error m =>
    match items.get? i with
    | some item =>
      { url := item.url, file_path := none, success := false, index := item.index, error := some m }
    | none =>
      { url := some [], file_path := none, success := false, index := i, error := some m }

/-- `pre_download_media` (downloader.py lines 266-365).  `asyncio.gather`
returns the task results in task-creation order, i.e. in the order of
`media_items`; `outcome i` is the environment's behaviour for job `i`. -/
def pre_download_media (items : List MediaItem) (cache_dir : List Char)
    (outcome : ℕ → JobOutcome) : List DownloadResult :=
  if cache_dir = [] ∨ items = [] then []
  else items.enum.map (fun p => processOne items p.1 (download_one p.2 (outcome p.1)))

/- ------------------------------------------------------------------
src/core/downloader/manager.py — candidate fallback and batch download
------------------------------------------------------------------ -/

/-- A media item built by `DownloadManager._build_media_items`
(downloader/manager.py lines 328-382): an ordered candidate URL list plus
identity fields.  Headers and proxy are opaque pass-through values. -/
structure MediaItem2 where
  url_list : List (List Char)
  media_id : List Char
  index : ℕ
  is_video : Bool
deriving DecidableEq, Inhabited

/-- What `router.download_media` did for one candidate URL:
* `noResult` — it returned `None` (its type handlers catch their own
  errors and return `None`, cf. downloader.py lines 140-142 and 261-263);
* `result fp sz` — it returned a dict `{'file_path': fp, 'size_mb': sz}`;
* `raised msg` — an exception (e.g. cancellation) escaped the call. -/
inductive FetchOutcome
  | noResult
  | result (file_path : Option (List Char)) (size_mb : Option ℚ)
  | raised (msg : List Char)
deriving DecidableEq, Inhabited

/-- Outcome of walking a candidate URL list in order (the `for url in
url_list` loops at downloader/manager.py lines 91-103 and 464-482):
first hit, an escaping exception, or exhaustion. -/
inductive CandScan
  | hit (p : List Char) (sz : Option ℚ)
  | exn (m : List Char)
  | exhausted
deriving DecidableEq, Inhabited

/-- Walk the candidates in order; stop at the first `result` whose
`file_path` is truthy (`if result and result.get('file_path')`). -/
def scanCandidates (fetch : List Char → FetchOutcome) : List (List Char) → CandScan
  | [] => .exhausted
  | u :: rest =>
    match fetch u with
    | .raised m => .exn m
    | .result (some p) sz => if p = [] then scanCandidates fetch rest else .hit p sz
    | .result none _ => scanCandidates fetch rest
    | .noResult => scanCandidates fetch rest

/-- The candidate URLs actually handed to `download_media` by the loop
(instrumentation of the same control flow as `scanCandidates`). -/
def attemptedCandidates (fetch : List Char → FetchOutcome) : List (List Char) → List (List Char)
  | [] => []
  | u :: rest =>
    match fetch u with
    | .raised _ => [u]
    | .result (some p) _ =>
      if p = [] then u :: attemptedCandidates fetch rest else [u]
    | .result none _ => u :: attemptedCandidates fetch rest
    | .noResult => u :: attemptedCandidates fetch rest

/-- `DownloadManager._download_one_image` (downloader/manager.py lines
63-105): walk the candidate list, return the first truthy `file_path`,
`None` when every candidate failed.  The body has no `try`, so an escaping
exception propagates to the caller (`.error`). -/
def download_one_image (fetch : List Char → FetchOutcome) (url_list : List (List Char)) :
    Except (List Char) (Option (List Char)) :=
  if url_list = [] then .ok none
  else
    match scanCandidates fetch url_list with
    | .hit p _ => .ok (some p)
    | .exn m => .error m
    | .exhausted => .ok none

/-- One result dict of `_batch_download_media.download_one`
(downloader/manager.py lines 447-501).  Key sets differ slightly between
the three Python return sites; consumers use `.get`, so absent keys and
`None` coincide and a single record with optional fields is faithful. -/
structure BatchResult where
  url : Option (List Char)
  file_path : Option (List Char)
  size_mb : Option ℚ
  success : Bool
  index : ℕ
  error : Option (List Char)
deriving DecidableEq, Inhabited

/-- `download_one` inside `_batch_download_media` (downloader/manager.py
lines 447-501): empty candidate list short-circuits to a failure dict; the
candidate loop stops at the first hit; any exception raised inside the
`try` is caught at line 491 and becomes a failure dict carrying `error`. -/
def batch_download_one (fetch : List Char → FetchOutcome) (item : MediaItem2) : BatchResult :=
  if item.url_list = [] then
    { url := none, file_path := none, size_mb := none, success := false,
      index := item.index, error := none }
  else
    match scanCandidates fetch item.url_list with
    | .hit p sz =>
      { url := item.url_list.head?, file_path := some p, size_mb := sz, success := true,
        index := item.index, error := none }
    | .exhausted =>
      { url := item.url_list.head?, file_path := none, size_mb := none, success := false,
        index := item.index, error := none }
    | .exn m =>
      { url := item.url_list.head?, file_path := none, size_mb := none, success := false,
        index := item.index, error := some m }

/-- Modelled from the spec: `process_gather_results` is imported from
`src/core/downloader/utils.py`, which is not among the provided sources.
Spec §4.4 requires that the batch executor "collects results preserving
positional identity" and that "every job's result is captured
independently — one job's exception must not abort sibling jobs"; an
exception surfacing at the gather level is converted into a structured
failure result for the item at the same position, exactly like the inline
post-processing loop of `pre_download_media` (downloader.py lines 342-364)
of which this helper is the factored-out counterpart. -/
def process_gather_results (results : List (Except (List Char) BatchResult))
    (items : List MediaItem2) : List BatchResult :=
  results.enum.map (fun p =>
    match p.2 with
    | .ok d => d
    | .error m =>
      match items.get? p.1 with
      | some it =>
        { url := it.url_list.head?, file_path := none, size_mb := none, success := false,
          index := it.index, error := some m }
      | none =>
        { url := some [], file_path := none, size_mb := none, success := false,
          index := p.1, error := some m })

/-- `DownloadManager._batch_download_media` (downloader/manager.py lines
419-505).  `esc i = some m` means task `i` was aborted by an exception
(e.g. cancellation) that bypassed `download_one`'s `except Exception` and
reached `asyncio.gather`; otherwise the task completed `download_one`. -/
def batch_download_media (items : List MediaItem2) (cache_dir : List Char)
    (fetch : List Char → FetchOutcome) (esc : ℕ → Option (List Char)) : List BatchResult :=
  if cache_dir = [] ∨ items = [] then []
  else
    process_gather_results
      (items.enum.map (fun p =>
        match esc p.1 with
        | some m => .error m
        | none => .ok (batch_download_one fetch p.2)))
      items

/- ------------------------------------------------------------------
src/core/downloader.py — `download_media_to_cache` (cache idempotence)
------------------------------------------------------------------ -/

/-- Outcome of the HTTP GET issued by `download_media_to_cache`:
`err` covers a failed request, a non-2xx `raise_for_status`, or a failed
body read — all are caught by the enclosing `except Exception` (downloader.py
lines 261-263) and yield `None`; `ok ct body` is a successful response with
declared content type `ct` and payload `body`. -/
inductive HttpResp
  | err
  | ok (content_type : List Char) (body : List Char)
deriving DecidableEq, Inhabited

/-- Result of one `download_media_to_cache` call, instrumented with the new
filesystem state (the set of existing file paths), whether the response
body was read over the network, and whether a file was written. -/
structure CacheCall where
  path : Option (List Char)
  fs : List (List Char)
  body_read : Bool
  wrote : Bool
deriving DecidableEq

/-- `os.path.join(cache_dir, filename)` for a cache dir without a trailing
slash; `os.path.normpath` is the identity on such already-normal paths. -/
def pathJoin (dir fname : List Char) : List Char := dir ++ '/' :: fname

/-- The `f"{media_id}_{index}{suffix}"` cache filename. -/
def cacheFilename (media_id : List Char) (index : ℕ) (suffix : List Char) : List Char :=
  media_id ++ '_' :: (Nat.toDigits 10 index) ++ suffix

/-- `download_media_to_cache` (downloader.py lines 145-263).
`get_image_suffix` lives in `src/core/file_manager.py`, which is not among
the provided sources; it is passed in as an opaque deterministic function of
the content type and the URL (spec §4.3: the filename is "derived from media
id, slot index, and detected/declared extension").  Faithful order of
operations: in the image branch the response body is read *before* the
existence check (lines 208-219); in the video branch the existence check
comes first and the body is only read when the file is absent (lines
249-259). -/
def download_media_to_cache (get_image_suffix : List Char → List Char → List Char)
    (fs : List (List Char)) (media_url cache_dir media_id : List Char) (index : ℕ)
    (is_video : Bool) (resp : HttpResp) : CacheCall :=
  if cache_dir = [] then { path := none, fs := fs, body_read := false, wrote := false }
  else
    match resp with
    | .err => { path := none, fs := fs, body_read := false, wrote := false }
    | .ok ct _body =>
      if is_video then
        let fp := pathJoin cache_dir (cacheFilename media_id index ".mp4".toList)
        if fs.contains fp then
          { path := some fp, fs := fs, body_read := false, wrote := false }
        else
          { path := some fp, fs := fp :: fs, body_read := true, wrote := true }
      else
        let fp := pathJoin cache_dir (cacheFilename media_id index (get_image_suffix ct media_url))
        if fs.contains fp then
          { path := some fp, fs := fs, body_read := true, wrote := false }
        else
          { path := some fp, fs := fp :: fs, body_read := true, wrote := true }

/- ------------------------------------------------------------------
src/core/downloader/manager.py — size probing and the policy engine
------------------------------------------------------------------ -/

/-- Gathered result of one `_get_video_size_task` (downloader/manager.py
lines 166-198): either the task's `(size_mb, status_code)` tuple, or an
exception (e.g. cancellation) that escaped the task's catch-all `except`
and is observed by `asyncio.gather` (`str(exc)` carried as the message). -/
inductive ProbeOutcome
  | exc (msg : List Char)
  | tup (size : Option ℚ) (status : Option ℤ)
deriving DecidableEq, Inhabited

/-- Fold of one gathered probe result into `(size, denied)` as done by the
loop at downloader/manager.py lines 240-253: an exception contributes no
size and is access-denied when its text mentions `403` or `Forbidden`; a
tuple contributes its size and is access-denied when the status is 403. -/
def processProbe : ProbeOutcome → Option ℚ × Bool
  | .exc m => (none, containsSub "403".toList m || containsSub "Forbidden".toList m)
  | .tup s st => (s, st == some 403)

/-- `DownloadManager._check_video_sizes` (downloader/manager.py lines
200-255).  A slot whose candidate list is empty short-circuits inside
`_get_video_size_task` to `(None, None)`; otherwise `probe i` is the
environment's answer for slot `i`. -/
def check_video_sizes (shutting_down : Bool) (video_urls : List (List (List Char)))
    (probe : ℕ → ProbeOutcome) : List (Option ℚ) × Bool :=
  if shutting_down then (List.replicate video_urls.length none, false)
  else
    let outs := video_urls.enum.map (fun p => if p.2 = [] then ProbeOutcome.tup none none else probe p.1)
    (outs.map (fun o => (processProbe o).1), outs.any (fun o => (processProbe o).2))

/-- Python `max` of a non-empty list (the empty case is never reached by the
guarded call sites). -/
def pymax : List ℚ → ℚ
  | [] => 0
  | x :: xs => xs.foldl max x

/-- Python `sum` of a list of rationals. -/
def pysum (l : List ℚ) : ℚ := l.foldl (· + ·) 0

/-- `DownloadManager._check_size_limit` (downloader/manager.py lines
257-291): with no configured limit, or no successfully measured size,
report no violation; otherwise compare the largest measured size with the
limit.  Returns `(exceeds_limit, max_video_size, total_video_size)`. -/
def check_size_limit (max_video_size_mb : ℚ) (video_sizes : List (Option ℚ)) :
    Bool × Option ℚ × ℚ :=
  if max_video_size_mb ≤ 0 then (false, none, 0)
  else
    let valid := video_sizes.filterMap id
    if valid = [] then (false, none, 0)
    else if max_video_size_mb < pymax valid then (true, some (pymax valid), pysum valid)
    else (false, some (pymax valid), pysum valid)

/-- The metadata dict fed into `DownloadManager.process_metadata`
(downloader/manager.py lines 554-566): source URL, per-kind slot lists
(each slot an ordered candidate-URL list) and the platform's force-download
flag.  Headers and proxy settings are opaque pass-through values. -/
structure MetaIn where
  url : List Char
  video_urls : List (List (List Char))
  image_urls : List (List (List Char))
  video_force_download : Bool
deriving DecidableEq

/-- The metadata dict as returned by `DownloadManager.process_metadata`:
the input fields (the `video_urls` key can have been cleared) plus the
annotation keys the pipeline writes.  `none` models an absent key.
For the `max_video_size_mb` key the stored value is itself optional
(`None` when no size was measured), hence the nested option. -/
structure MetaOut where
  url : List Char
  video_urls : List (List (List Char))
  image_urls : List (List (List Char))
  video_force_download : Bool
  exceeds_max_size : Option Bool := none
  has_valid_media : Option Bool := none
  has_access_denied : Option Bool := none
  video_sizes : Option (List (Option ℚ)) := none
  max_video_size_mb : Option (Option ℚ) := none
  total_video_size_mb : Option ℚ := none
  video_count : Option ℕ := none
  image_count : Option ℕ := none
  failed_video_count : Option ℕ := none
  failed_image_count : Option ℕ := none
  file_paths : Option (List (Option (List Char))) := none
  use_local_files : Option Bool := none
deriving DecidableEq

/-- The output record before any annotation is written. -/
def initOut (m : MetaIn) : MetaOut :=
  { url := m.url, video_urls := m.video_urls, image_urls := m.image_urls,
    video_force_download := m.video_force_download }

/-- `DownloadManager._create_exceeded_size_metadata` (downloader/manager.py
lines 293-326). -/
def create_exceeded_size_metadata (m : MetaOut) (video_sizes : List (Option ℚ))
    (max_video_size : Option ℚ) (total_video_size : ℚ) (video_count image_count : ℕ) :
    MetaOut :=
  { m with
    exceeds_max_size := some true,
    has_valid_media := some false,
    video_sizes := some video_sizes,
    max_video_size_mb := some max_video_size,
    total_video_size_mb := some total_video_size,
    video_count := some video_count,
    image_count := some image_count,
    failed_video_count := some video_count,
    failed_image_count := some image_count,
    file_paths := some [],
    use_local_files := some false }

/-- `DownloadManager._build_media_items` (downloader/manager.py lines
328-382): skip slots with a falsy candidate list, number the surviving
video slots from 0 and continue the numbering over the image slots. -/
def build_media_items (video_urls image_urls : List (List (List Char)))
    (media_id : List Char) : List MediaItem2 :=
  let vs := video_urls.filter (fun ul => ul ≠ [])
  let imgs := image_urls.filter (fun ul => ul ≠ [])
  vs.enum.map (fun p => { url_list := p.2, media_id := media_id, index := p.1, is_video := true }) ++
  imgs.enum.map (fun p =>
    { url_list := p.2, media_id := media_id, index := vs.length + p.1, is_video := false })

/-- Python truthiness of an optional file path. -/
def pathTruthy : Option (List Char) → Bool
  | none => false
  | some p => p ≠ []

/-- `DownloadManager._process_single_type_results` (downloader/manager.py
lines 384-416): for each expected slot take the result at
`start_idx + idx`, keeping its path when it succeeded with a truthy path,
`None` (counted as failed) otherwise or when the result list is short. -/
def process_single_type_results (download_results : List BatchResult)
    (expected_count start_idx : ℕ) : List (Option (List Char)) × ℕ :=
  let entries := (List.range expected_count).map (fun idx =>
    match download_results.get? (start_idx + idx) with
    | some r => if r.success && pathTruthy r.file_path then r.file_path else none
    | none => none)
  (entries, entries.countP Option.isNone)

/-- `DownloadManager._process_download_results` (downloader/manager.py lines
507-530): video paths first, then image paths, with per-kind failure
counts. -/
def process_download_results (download_results : List BatchResult)
    (video_urls image_urls : List (List (List Char))) :
    List (Option (List Char)) × ℕ × ℕ :=
  let v := process_single_type_results download_results video_urls.length 0
  let i := process_single_type_results download_results image_urls.length video_urls.length
  (v.1 ++ i.1, v.2, i.2)

/-- `DownloadManager._download_images` (downloader/manager.py lines
107-163): gather `_download_one_image` over all image slots
(`imgEsc i = some m` models task `i` being aborted before completing), then
convert each gathered value — exceptions and non-truthy paths count as
failures.  When there are no slots to fetch the failure count is the slot
count (zero when the list itself is empty). -/
def download_images (shutting_down : Bool) (image_urls : List (List (List Char)))
    (has_valid_images : Bool) (fetch : List Char → FetchOutcome)
    (imgEsc : ℕ → Option (List Char)) : List (Option (List Char)) × ℕ :=
  if image_urls ≠ [] ∧ has_valid_images then
    if shutting_down then ([], image_urls.length)
    else
      let raw : List (Except (List Char) (Option (List Char))) :=
        image_urls.enum.map (fun p =>
          match imgEsc p.1 with
          | some m => .error m
          | none => download_one_image fetch p.2)
      let entries := raw.map (fun r =>
        match r with
        | .error _ => none
        | .ok (some p) => if p = [] then none else some p
        | .ok none => none)
      (entries, entries.countP Option.isNone)
  else
    ([], image_urls.length)

/-- The configuration fields of `DownloadManager` (downloader/manager.py
lines 25-61) that `process_metadata` consults.  `effective_pre_download`
already folds in `check_cache_dir_available` (line 57). -/
structure Cfg where
  max_video_size_mb : ℚ
  large_video_threshold_mb : ℚ
  cache_dir : List Char
  effective_pre_download : Bool
deriving DecidableEq

/-- Tail of the pre-download branch (downloader/manager.py lines 666-677):
aggregate validity over the batch results and stamp the final counters. -/
def predownload_finish (m2 : MetaOut) (download_results : List BatchResult)
    (video_count image_count : ℕ) : MetaOut :=
  let hv := download_results.any (fun r => r.success && pathTruthy r.file_path)
  { m2 with
    has_valid_media := some hv
    use_local_files := some hv
    video_count := some video_count
    image_count := some image_count
    exceeds_max_size := some false }

/-- The pre-download branch of `DownloadManager.process_metadata`
(downloader/manager.py lines 594-677).  `video_sizes` is whatever the
earlier limit-gated probing produced (`[]` when it did not run). -/
def process_metadata_predownload (cfg : Cfg) (meta : MetaIn)
    (video_sizes : List (Option ℚ)) (fetch : List Char → FetchOutcome)
    (batchEsc : ℕ → Option (List Char)) (media_id : List Char) : MetaOut :=
  let m0 := initOut meta
  let video_urls := meta.video_urls
  let image_urls := meta.image_urls
  let media_items := build_media_items video_urls image_urls media_id
  let download_results := batch_download_media media_items cfg.cache_dir fetch batchEsc
  let pdr := process_download_results download_results video_urls image_urls
  -- lines 616-627: when every forced-download video failed, drop the video
  -- slots and blank their path entries
  let ovc := video_urls.length
  let video_results := if 0 < ovc then download_results.take ovc else []
  let all_video_failed :=
    if video_results = [] then false else video_results.all (fun r => r.success = false)
  let doClear := meta.video_force_download ∧ all_video_failed ∧ 0 < ovc
  let video_urls' := if doClear then [] else video_urls
  let file_paths :=
    if doClear then pdr.1.enum.map (fun p => if p.1 < ovc then none else p.2) else pdr.1
  let fvc := if doClear then ovc else pdr.2.1
  let m1 := { m0 with
    video_urls := video_urls'
    file_paths := some file_paths
    failed_video_count := some fvc
    failed_image_count := some pdr.2.2 }
  if video_urls' ≠ [] then
    -- lines 633-660: prefer directly measured sizes, fall back to probed ones
    let final_video_sizes := (download_results.take video_urls'.length).enum.map (fun p =>
      if p.2.success ∧ p.2.size_mb ≠ none then p.2.size_mb
      else if p.1 < video_sizes.length then video_sizes.getD p.1 none
      else none)
    let valid := final_video_sizes.filterMap id
    let mx : Option ℚ := if valid = [] then none else some (pymax valid)
    let tot : ℚ := if valid = [] then 0 else pysum valid
    let m2 := { m1 with
      video_sizes := some final_video_sizes
      max_video_size_mb := some mx
      total_video_size_mb := some tot }
    let chk := check_size_limit cfg.max_video_size_mb final_video_sizes
    if chk.1 then
      -- `cleanup_files(file_paths)` deletes the already-written files
      -- (filesystem effect outside this record)
      { m2 with
        exceeds_max_size := some true
        has_valid_media := some false
        use_local_files := some false
        file_paths := some [] }
    else
      predownload_finish m2 download_results video_urls'.length image_urls.length
  else
    let m2 := { m1 with
      video_sizes := some []
      max_video_size_mb := some none
      total_video_size_mb := some 0 }
    predownload_finish m2 download_results video_urls'.length image_urls.length

/-- The direct-link branch of `DownloadManager.process_metadata`
(downloader/manager.py lines 678-749).  `video_sizes0` is whatever the
earlier limit-gated probing produced (`[]` when it did not run) — note that
the branch re-probes (and hence learns about 403s) only when that earlier
list is empty. -/
def process_metadata_direct (cfg : Cfg) (shutting_down : Bool) (meta : MetaIn)
    (video_sizes0 : List (Option ℚ)) (probe : ℕ → ProbeOutcome)
    (fetch : List Char → FetchOutcome) (imgEsc : ℕ → Option (List Char)) : MetaOut :=
  let m0 := initOut meta
  let image_urls := meta.image_urls
  -- lines 681-684: forced download without batch mode drops all video slots
  let video_urls := if meta.video_force_download then [] else meta.video_urls
  -- lines 686-691
  let probed :=
    if video_urls ≠ [] ∧ video_sizes0 = [] then check_video_sizes shutting_down video_urls probe
    else (video_sizes0, false)
  let video_sizes := probed.1
  let valid := video_sizes.filterMap id
  let mx : Option ℚ := if valid = [] then none else some (pymax valid)
  let tot : ℚ := if valid = [] then 0 else pysum valid
  let has_valid_videos := valid ≠ []
  -- lines 703-708
  let imgs :=
    if image_urls ≠ [] then download_images shutting_down image_urls true fetch imgEsc
    else ([], 0)
  let has_valid_images := imgs.1.any pathTruthy
  -- lines 710-718
  let m1 := { m0 with
    video_urls := video_urls
    video_sizes := some video_sizes
    max_video_size_mb := some mx
    total_video_size_mb := some tot
    video_count := some video_urls.length
    image_count := some image_urls.length }
  let has_valid_media := has_valid_videos || has_valid_images
  let m2 := { m1 with
    has_valid_media := some has_valid_media
    has_access_denied := some probed.2 }
  if has_valid_media = false then
    -- lines 720-726
    { m2 with
      exceeds_max_size := some false
      file_paths := some imgs.1
      use_local_files := some has_valid_images
      failed_video_count := some video_urls.length
      failed_image_count := some imgs.2 }
  else
    -- lines 728-749
    let chk := check_size_limit cfg.max_video_size_mb video_sizes
    if chk.1 then
      { m2 with
        exceeds_max_size := some true
        has_valid_media := some has_valid_images
        max_video_size_mb := some chk.2.1
        failed_video_count := some video_urls.length
        failed_image_count := some imgs.2 }
    else
      { m2 with
        exceeds_max_size := some false
        file_paths := some imgs.1
        use_local_files := some has_valid_images
        failed_video_count := some (video_sizes.countP Option.isNone)
        failed_image_count := some imgs.2 }

/-- `DownloadManager.process_metadata` (downloader/manager.py lines
532-749).  When a positive limit is configured and video slots exist, the
sizes are probed and the post is rejected outright when the largest
measured size exceeds the limit (lines 578-592); hoisting the
`_check_size_limit` call out of that guard is equivalent because it reports
no violation for a non-positive limit or an empty size list.  Otherwise the
pre-download or the direct-link branch runs. -/
def process_metadata (cfg : Cfg) (shutting_down : Bool) (meta : MetaIn)
    (probe : ℕ → ProbeOutcome) (fetch : List Char → FetchOutcome)
    (batchEsc imgEsc : ℕ → Option (List Char)) (media_id : List Char) : MetaOut :=
  let m0 := initOut meta
  if shutting_down then m0
  else
    let video_urls := meta.video_urls
    let video_sizes :=
      if video_urls ≠ [] ∧ 0 < cfg.max_video_size_mb then
        (check_video_sizes shutting_down video_urls probe).1
      else []
    let chk := check_size_limit cfg.max_video_size_mb video_sizes
    if chk.1 then
      create_exceeded_size_metadata m0 video_sizes chk.2.1 chk.2.2
        video_urls.length meta.image_urls.length
    else if cfg.effective_pre_download then
      process_metadata_predownload cfg meta video_sizes fetch batchEsc media_id
    else
      process_metadata_direct cfg shutting_down meta video_sizes probe fetch imgEsc

/- ------------------------------------------------------------------
src/core/download_manager.py — the legacy DownloadManager
------------------------------------------------------------------ -/

/-- Configuration of the legacy `DownloadManager` (download_manager.py lines
29-57).  `cache_dir_available` is the result of
`check_cache_dir_available(cache_dir)` (from `core/file_manager.py`, not
among the provided sources), an environment fact modelled as a field. -/
structure DMCfg where
  max_video_size_mb : ℚ
  large_video_threshold_mb : ℚ
  cache_dir : List Char
  pre_download_all_media : Bool
  cache_dir_available : Bool
deriving DecidableEq

/-- The metadata dict fed to the legacy `process_metadata`
(download_manager.py lines 168-176): kind tag, flat media URL list,
optional `video_urls` key (`none` models an absent key), `media_types`
list for mixed posts and the Twitter force flag. -/
structure DMMetaIn where
  url : List Char
  media_type : List Char
  media_urls : List (List Char)
  video_urls : Option (List (List Char))
  media_types : List (List Char)
  is_twitter_video : Bool
deriving DecidableEq

/-- The metadata dict returned by the legacy `process_metadata`, input
fields plus the annotation keys it writes (`none` models an absent key). -/
structure DMMetaOut where
  url : List Char
  media_type : List Char
  media_urls : List (List Char)
  video_urls : Option (List (List Char))
  media_types : List (List Char)
  is_twitter_video : Bool
  video_sizes : Option (List (Option ℚ)) := none
  max_video_size_mb : Option (Option ℚ) := none
  total_video_size_mb : Option ℚ := none
  video_count : Option ℕ := none
  exceeds_max_size : Option Bool := none
  is_large_media : Option Bool := none
  file_paths : Option (List (Option (List Char))) := none
  use_local_files : Option Bool := none
deriving DecidableEq

/-- The legacy output record before any annotation is written. -/
def dmInitOut (m : DMMetaIn) : DMMetaOut :=
  { url := m.url, media_type := m.media_type, media_urls := m.media_urls,
    video_urls := m.video_urls, media_types := m.media_types,
    is_twitter_video := m.is_twitter_video }

/-- `DownloadManager._determine_media_type` (download_manager.py lines
59-89). -/
def determine_media_type (meta : DMMetaIn) (idx : ℕ) (media_url : List Char) : Bool :=
  if meta.media_type = "mixed".toList then
    if idx < meta.media_types.length then meta.media_types.getD idx [] = "video".toList
    else (meta.video_urls.getD []).contains media_url
  else if meta.media_type = "video".toList then true
  else if meta.media_type = "gallery".toList then
    idx = 0 ∧ containsSub ".mp4".toList (pyLower media_url)
  else false

/-- `DownloadManager._build_media_items` of the legacy manager
(download_manager.py lines 91-126): one item per media URL, kind decided
per index. -/
def dm_build_media_items (meta : DMMetaIn) (media_id : List Char) : List MediaItem :=
  meta.media_urls.enum.map (fun p =>
    { url := some p.2, media_id := media_id, index := p.1,
      is_video := determine_media_type meta p.1 p.2 })

/-- `DownloadManager._process_download_results` of the legacy manager
(download_manager.py lines 128-146): keep the path of each successful
result with a truthy path, `None` otherwise. -/
def dm_process_download_results (download_results : List DownloadResult) :
    List (Option (List Char)) :=
  download_results.map (fun r =>
    if r.success && pathTruthy r.file_path then r.file_path else none)

/-- The `video_urls` selection shared by both branches of the legacy
`process_metadata` (download_manager.py lines 208-213 and 269-274):
`mixed` posts read the `video_urls` key defaulting to `[]`, `video` posts
default it to `media_urls`, anything else has no video slots. -/
def dm_select_video_urls (meta : DMMetaIn) : List (List Char) :=
  if meta.media_type = "mixed".toList then meta.video_urls.getD []
  else if meta.media_type = "video".toList then meta.video_urls.getD meta.media_urls
  else []

/-- The gathered `get_video_size_task` results folded into a size list
(download_manager.py lines 222-236 and 302-315): the task catches every
exception into `None` and the fold maps non-numeric results to `None` as
well, so each slot contributes exactly an optional size. -/
def dm_video_sizes (video_urls : List (List Char)) (probe : ℕ → Option ℚ) :
    List (Option ℚ) :=
  (List.range video_urls.length).map probe

/-- The video statistics block shared by both branches of the legacy
`process_metadata` (download_manager.py lines 229-246 and 308-325). -/
def dm_video_stats (m : DMMetaOut) (video_urls : List (List Char))
    (probe : ℕ → Option ℚ) : DMMetaOut :=
  let video_sizes := dm_video_sizes video_urls probe
  let valid := video_sizes.filterMap id
  { m with
    video_sizes := some video_sizes
    max_video_size_mb := some (if valid = [] then none else some (pymax valid))
    total_video_size_mb := some (if valid = [] then 0 else pysum valid)
    video_count := some video_urls.length }

/-- The zero video statistics block of the legacy `process_metadata`
(download_manager.py lines 201-204, 248-251, 259-262 and 277-280). -/
def dm_zero_video_stats (m : DMMetaOut) : DMMetaOut :=
  { m with
    video_sizes := some []
    max_video_size_mb := some none
    total_video_size_mb := some 0
    video_count := some 0 }

/-- `limit is configured-positive and the known maximum exceeds it`:
`max_video_size is not None and max_video_size > limit`. -/
def optExceeds (limit : ℚ) (mx : Option ℚ) : Bool :=
  match mx with
  | some q => decide (limit < q)
  | none => false

/-- `DownloadManager.process_metadata` of the legacy manager
(download_manager.py lines 148-376).  `probe i` is the environment's
answer for the size probe of video slot `i` (`none` covering every failure
mode, as the task catches all exceptions into `None`); `outcome` drives
`pre_download_media`'s jobs and `media_id` stands for
`_generate_media_id(url)`. -/
def dm_process_metadata (cfg : DMCfg) (meta : DMMetaIn) (probe : ℕ → Option ℚ)
    (outcome : ℕ → JobOutcome) (media_id : List Char) : DMMetaOut :=
  let m0 := dmInitOut meta
  if meta.media_urls = [] then m0
  else if cfg.pre_download_all_media ∧ cfg.cache_dir_available then
    -- lines 178-256: global pre-fetch of every slot
    let items := dm_build_media_items meta media_id
    let results := pre_download_media items cfg.cache_dir outcome
    let file_paths := dm_process_download_results results
    let m1 := { m0 with file_paths := some file_paths, use_local_files := some true }
    if meta.media_type = "gallery".toList then
      { dm_zero_video_stats m1 with exceeds_max_size := some false, is_large_media := some false }
    else
      let video_urls := dm_select_video_urls meta
      let m2 := if video_urls ≠ [] then dm_video_stats m1 video_urls probe
                else dm_zero_video_stats m1
      { m2 with exceeds_max_size := some false, is_large_media := some false }
  else if meta.media_type = "gallery".toList then
    -- lines 258-267
    { dm_zero_video_stats m0 with
      exceeds_max_size := some false
      file_paths := some (List.replicate meta.media_urls.length none)
      use_local_files := some false
      is_large_media := some false }
  else
    let video_urls := dm_select_video_urls meta
    if video_urls = [] then
      -- lines 276-285
      { dm_zero_video_stats m0 with
        exceeds_max_size := some false
        file_paths := some (List.replicate meta.media_urls.length none)
        use_local_files := some false
        is_large_media := some false }
    else
      -- lines 287-325: concurrent size probes and statistics
      let video_sizes := dm_video_sizes video_urls probe
      let valid := video_sizes.filterMap id
      let mx : Option ℚ := if valid = [] then none else some (pymax valid)
      let m1 := dm_video_stats m0 video_urls probe
      -- lines 327-334: hard size ceiling
      let sizeViolation :=
        decide (0 < cfg.max_video_size_mb) && optExceeds cfg.max_video_size_mb mx
      if sizeViolation then { m1 with exceeds_max_size := some true }
      else
        let m2 := { m1 with exceeds_max_size := some false }
        -- lines 338-346: large-video threshold and the Twitter force flag
        let needs_download :=
          (decide (0 < cfg.large_video_threshold_mb) &&
            optExceeds cfg.large_video_threshold_mb mx) ||
          meta.is_twitter_video
        if needs_download && cfg.cache_dir_available then
          -- lines 348-370: escalate the whole post to a local fetch
          let items := dm_build_media_items meta media_id
          let results := pre_download_media items cfg.cache_dir outcome
          { m2 with
            file_paths := some (dm_process_download_results results)
            use_local_files := some true
            is_large_media := some true }
        else
          { m2 with
            file_paths := some (List.replicate meta.media_urls.length none)
            use_local_files := some false
            is_large_media := some false }

/- ------------------------------------------------------------------
Constructor normalisation of the large-video threshold
------------------------------------------------------------------ -/

/-- Modelled from the spec: `Config.MAX_LARGE_VIDEO_THRESHOLD_MB` lives in
`src/core/constants.py`, which is not among the provided sources.  The
legacy constructor performs the identical clamp with the literal `100.0`
(download_manager.py line 48), and a 100 MB cap is the value consistent
with the constant's role, so the constant is taken to be 100. -/
def MAX_LARGE_VIDEO_THRESHOLD_MB : ℚ := 100

/-- The `large_video_threshold_mb` normalisation of the legacy
`DownloadManager.__init__` (download_manager.py lines 47-50): positive
values are clamped to at most `100.0`, anything else is stored as `0.0`. -/
def dm_init_large_video_threshold (t : ℚ) : ℚ :=
  if 0 < t then min t 100 else 0

/-- The `large_video_threshold_mb` normalisation of the current
`DownloadManager.__init__` (downloader/manager.py lines 44-50), clamping
with `Config.MAX_LARGE_VIDEO_THRESHOLD_MB`. -/
def manager_init_large_video_threshold (t : ℚ) : ℚ :=
  if 0 < t then min t MAX_LARGE_VIDEO_THRESHOLD_MB else 0

/-- The `large_video_threshold_mb` normalisation of
`ConfigManager._parse_config` (config_manager.py lines 58-63): positive
values are clamped to the same constant, but a non-positive value is kept
as it is. -/
def config_parse_large_video_threshold (t : ℚ) : ℚ :=
  if 0 < t then min t MAX_LARGE_VIDEO_THRESHOLD_MB else t

/- ------------------------------------------------------------------
Derived notions used by the statements
------------------------------------------------------------------ -/

/-- Whether one candidate URL's `download_media` outcome counts as a hit for
the fallback loops: a returned dict with a truthy `file_path`. -/
def candHit : FetchOutcome → Bool
  | .result (some p) _ => p ≠ []
  | _ => false

/-- The file path delivered by a hit (`none` for a non-hit). -/
def hitPath : FetchOutcome → Option (List Char)
  | .result (some p) _ => if p = [] then none else some p
  | _ => none

/- ==================================================================
Theorems
================================================================== -/

theorem get?_enum_map {α β : Type _} (f : ℕ × α → β) (l : List α) (i : ℕ) :
    (l.enum.map f).get? i = (l.get? i).map (fun a => f (i, a)) := by
  rw [List.get?_map, List.enum_get?]
  cases l.get? i <;> rfl

/-- C9: the media type classifier is a pure function of the URL string; a
`.m3u8` substring anywhere in the URL forces the segmented-stream class,
and the sample URLs classify as the spec states: a video extension before
a query string yields video, a known image extension yields image, and a
URL matching nothing yields the video default. -/
theorem detect_media_type_spec :
    (∀ url : List Char, ".m3u8".toList <:+: url → detect_media_type url = "m3u8") ∧
    detect_media_type "https://cdn.example.com/video_abc.mp4?sig=1".toList = "video" ∧
    detect_media_type "https://cdn.example.com/img_1.webp".toList = "image" ∧
    detect_media_type "https://cdn.example.com/stream.m3u8?token=x".toList = "m3u8" ∧
    detect_media_type "https://cdn.example.com/unknown_path".toList = "video" := by
  refine ⟨?_, by decide, by decide, by decide, by decide⟩
  intro url h
  have e : ".m3u8".toList = ['.', 'm', '3', 'u', '8'] := by decide
  rw [e] at h
  obtain ⟨s, t, rfl⟩ := h
  have hne : s ++ ['.', 'm', '3', 'u', '8'] ++ t ≠ [] := by simp
  have hmap : List.map pyLowerChar ['.', 'm', '3', 'u', '8'] = ['.', 'm', '3', 'u', '8'] := by
    decide
  have hsplit : pyLower (s ++ ['.', 'm', '3', 'u', '8'] ++ t) =
      pyLower s ++ ['.', 'm', '3', 'u', '8'] ++ pyLower t := by
    unfold pyLower
    rw [List.map_append, List.map_append, hmap]
  have hinf : (['.', 'm', '3', 'u', '8'] : List Char) <:+:
      pyLower (s ++ ['.', 'm', '3', 'u', '8'] ++ t) := by
    rw [hsplit]
    exact ⟨pyLower s, pyLower t, rfl⟩
  have hcs : containsSub ['.', 'm', '3', 'u', '8']
      (pyLower (s ++ ['.', 'm', '3', 'u', '8'] ++ t)) = true := by
    unfold containsSub
    rw [decide_eq_true_eq]
    exact hinf
  rw [show (s ++ ['.', 'm', '3', 'u', '8'] ++ t) = s ++ '.' :: 'm' :: '3' :: 'u' :: '8' :: t
    from by simp] at hne hcs
  simp [detect_media_type, hne, e, hcs]

/-- Witness for the hypothesis-bearing clause of `detect_media_type_spec`. -/
theorem detect_media_type_spec_witness :
    detect_media_type "abc.m3u8".toList = "m3u8" :=
  detect_media_type_spec.1 "abc.m3u8".toList (by decide)

/-- C10: both download-manager constructors clamp the stored large-video
threshold to at most 100 MB — a value above 100 is silently stored as 100,
and a non-positive value is stored as exactly 0; the configuration parser
applies the same upper clamp to positive values. -/
theorem init_threshold_clamped (t : ℚ) :
    dm_init_large_video_threshold t ≤ 100 ∧
    manager_init_large_video_threshold t ≤ 100 ∧
    (100 < t →
      dm_init_large_video_threshold t = 100 ∧ manager_init_large_video_threshold t = 100) ∧
    (t ≤ 0 →
      dm_init_large_video_threshold t = 0 ∧ manager_init_large_video_threshold t = 0) ∧
    (0 < t → config_parse_large_video_threshold t ≤ 100) := by
  unfold dm_init_large_video_threshold manager_init_large_video_threshold
    config_parse_large_video_threshold MAX_LARGE_VIDEO_THRESHOLD_MB
  refine ⟨?_, ?_, fun h => ⟨?_, ?_⟩, fun h => ⟨?_, ?_⟩, fun h => ?_⟩
  · split
    · exact min_le_right t 100
    · norm_num
  · split
    · exact min_le_right t 100
    · norm_num
  · rw [if_pos (by linarith : (0 : ℚ) < t), min_eq_right (le_of_lt h)]
  · rw [if_pos (by linarith : (0 : ℚ) < t), min_eq_right (le_of_lt h)]
  · rw [if_neg (not_lt.mpr h)]
  · rw [if_neg (not_lt.mpr h)]
  · rw [if_pos h]
    exact min_le_right t 100

/-- Witness for `init_threshold_clamped`: an over-limit value is clamped to
100 and a negative value is stored as 0. -/
theorem init_threshold_clamped_witness :
    dm_init_large_video_threshold 150 = 100 ∧ manager_init_large_video_threshold (-5) = 0 :=
  ⟨((init_threshold_clamped 150).2.2.1 (by norm_num)).1,
   ((init_threshold_clamped (-5)).2.2.2.1 (by norm_num)).2⟩

/-- C5 counterexample: with the large-video threshold configured as 0
(pre-fetch off, cache available, hard limit unlimited), a post with one
30 MB video is NOT fetched to local cache — it stays on a direct link
(`use_local_files = False`, `is_large_media = False`, no file path), which
refutes "every video is always treated as large ... and is always fetched
to local cache"; the constructor docstring (downloader/manager.py line 38)
states this direct-link behaviour explicitly. -/
theorem threshold_zero_stays_direct_counterexample :
    (dm_process_metadata ⟨0, 0, "cache".toList, false, true⟩
        ⟨"u".toList, "video".toList, ["a".toList], none, [], false⟩
        (fun _ => some 30) (fun _ => .fetched (some "cache/f0".toList))
        "m".toList).use_local_files = some false ∧
    (dm_process_metadata ⟨0, 0, "cache".toList, false, true⟩
        ⟨"u".toList, "video".toList, ["a".toList], none, [], false⟩
        (fun _ => some 30) (fun _ => .fetched (some "cache/f0".toList))
        "m".toList).is_large_media = some false ∧
    (dm_process_metadata ⟨0, 0, "cache".toList, false, true⟩
        ⟨"u".toList, "video".toList, ["a".toList], none, [], false⟩
        (fun _ => some 30) (fun _ => .fetched (some "cache/f0".toList))
        "m".toList).file_paths = some [none] := by
  decide

/-- C5 amended: when the stored large-video threshold is non-positive (the
constructors store 0 for any non-positive configuration value) and no
platform flag forces a download, the no-pre-fetch path never escalates to
local files: the size-based escalation is disabled, so videos are
delivered via direct link. -/
theorem threshold_zero_disables_escalation (cfg : DMCfg) (meta : DMMetaIn)
    (probe : ℕ → Option ℚ) (outcome : ℕ → JobOutcome) (media_id : List Char)
    (hthr : cfg.large_video_threshold_mb ≤ 0)
    (hpre : cfg.pre_download_all_media = false)
    (htw : meta.is_twitter_video = false) :
    (dm_process_metadata cfg meta probe outcome media_id).use_local_files ≠ some true ∧
    (dm_process_metadata cfg meta probe outcome media_id).is_large_media ≠ some true := by
  have hthr' : ¬ (0 < cfg.large_video_threshold_mb) := not_lt.mpr hthr
  have hnd : ∀ mx : Option ℚ,
      ((decide (0 < cfg.large_video_threshold_mb) &&
        optExceeds cfg.large_video_threshold_mb mx) || meta.is_twitter_video) = false := by
    intro mx
    rw [decide_eq_false hthr', htw]
    simp
  simp only [dm_process_metadata, hnd, Bool.false_and]
  split_ifs <;>
    simp_all [dmInitOut, dm_video_stats, dm_zero_video_stats]

/-- Witness for `threshold_zero_disables_escalation`. -/
theorem threshold_zero_disables_escalation_witness :
    (dm_process_metadata ⟨0, 0, "c".toList, false, true⟩
        ⟨"u".toList, "video".toList, ["a".toList], none, [], false⟩
        (fun _ => some 30) (fun _ => .fetched none) "m".toList).use_local_files ≠ some true :=
  (threshold_zero_disables_escalation ⟨0, 0, "c".toList, false, true⟩
    ⟨"u".toList, "video".toList, ["a".toList], none, [], false⟩
    (fun _ => some 30) (fun _ => .fetched none) "m".toList
    (by norm_num) rfl rfl).1

theorem pre_download_media_length (items : List MediaItem) (cache_dir : List Char)
    (outcome : ℕ → JobOutcome) (hcd : cache_dir ≠ []) (hi : items ≠ []) :
    (pre_download_media items cache_dir outcome).length = items.length := by
  unfold pre_download_media
  rw [if_neg (not_or.mpr ⟨hcd, hi⟩)]
  simp

/-- C6 counterexample: with pre-fetch disabled and a 20 MB threshold, a post
holding a 30 MB video (slot 0) and a 10 MB video (slot 1) has BOTH slots
fetched to local cache — `use_local_files` is set for the whole post and the
unaffected 10 MB slot also receives a local file path, refuting
"single-item escalation ... while the other unaffected slots remain on
direct links". -/
theorem escalation_not_single_item_counterexample :
    (dm_process_metadata ⟨0, 20, "cache".toList, false, true⟩
        ⟨"u".toList, "video".toList, ["a".toList, "b".toList], none, [], false⟩
        (fun i => if i = 0 then some 30 else some 10)
        (fun i => .fetched (some ("cache/f".toList ++ [Char.ofNat (48 + i)])))
        "m".toList).use_local_files = some true ∧
    (dm_process_metadata ⟨0, 20, "cache".toList, false, true⟩
        ⟨"u".toList, "video".toList, ["a".toList, "b".toList], none, [], false⟩
        (fun i => if i = 0 then some 30 else some 10)
        (fun i => .fetched (some ("cache/f".toList ++ [Char.ofNat (48 + i)])))
        "m".toList).is_large_media = some true ∧
    (dm_process_metadata ⟨0, 20, "cache".toList, false, true⟩
        ⟨"u".toList, "video".toList, ["a".toList, "b".toList], none, [], false⟩
        (fun i => if i = 0 then some 30 else some 10)
        (fun i => .fetched (some ("cache/f".toList ++ [Char.ofNat (48 + i)])))
        "m".toList).file_paths =
      some [some "cache/f0".toList, some "cache/f1".toList] := by
  decide

/-- C6 amended: with pre-fetch disabled, when a measured video size exceeds
the positive threshold (and the hard limit is not violated), the legacy
manager escalates the WHOLE post to a local fetch: every media slot —
affected or not — is downloaded, `use_local_files` / `is_large_media` are
set post-wide, and the resulting path list covers all slots. -/
theorem large_video_escalates_whole_post (cfg : DMCfg) (meta : DMMetaIn)
    (probe : ℕ → Option ℚ) (outcome : ℕ → JobOutcome) (media_id : List Char)
    (hpre : cfg.pre_download_all_media = false)
    (hvid : meta.media_type = "video".toList)
    (hmu : meta.media_urls ≠ [])
    (hcache : cfg.cache_dir_available = true)
    (hcd : cfg.cache_dir ≠ [])
    (hval : (dm_video_sizes (dm_select_video_urls meta) probe).filterMap id ≠ [])
    (hthr : 0 < cfg.large_video_threshold_mb)
    (hbig : cfg.large_video_threshold_mb <
      pymax ((dm_video_sizes (dm_select_video_urls meta) probe).filterMap id))
    (hnotover : ¬ (0 < cfg.max_video_size_mb ∧ cfg.max_video_size_mb <
      pymax ((dm_video_sizes (dm_select_video_urls meta) probe).filterMap id))) :
    (dm_process_metadata cfg meta probe outcome media_id).use_local_files = some true ∧
    (dm_process_metadata cfg meta probe outcome media_id).is_large_media = some true ∧
    (dm_process_metadata cfg meta probe outcome media_id).file_paths =
      some (dm_process_download_results
        (pre_download_media (dm_build_media_items meta media_id) cfg.cache_dir outcome)) ∧
    (dm_process_download_results
        (pre_download_media (dm_build_media_items meta media_id) cfg.cache_dir outcome)).length =
      meta.media_urls.length := by
  have hsel : dm_select_video_urls meta ≠ [] := by
    intro h
    apply hval
    simp [dm_video_sizes, h]
  have hitems : dm_build_media_items meta media_id ≠ [] := by
    simp [dm_build_media_items]
    exact hmu
  have hlen : (dm_process_download_results
      (pre_download_media (dm_build_media_items meta media_id) cfg.cache_dir outcome)).length =
      meta.media_urls.length := by
    unfold dm_process_download_results
    rw [List.length_map, pre_download_media_length _ _ _ hcd hitems]
    simp [dm_build_media_items]
  refine ⟨?_, ?_, ?_, hlen⟩ <;>
  · simp only [dm_process_metadata]
    rw [if_neg hmu, if_neg (by simp [hpre]), if_neg (by rw [hvid]; decide), if_neg hsel,
      if_neg hval,
      if_neg (by
        simp only [optExceeds, Bool.and_eq_true, decide_eq_true_eq]
        exact fun hc => hnotover ⟨hc.1, hc.2⟩),
      if_pos (by simp [optExceeds, hthr, hbig, hcache])]

/-- Witness for `large_video_escalates_whole_post`. -/
theorem large_video_escalates_whole_post_witness :
    (dm_process_metadata ⟨0, 20, "cache".toList, false, true⟩
        ⟨"u".toList, "video".toList, ["a".toList, "b".toList], none, [], false⟩
        (fun i => if i = 0 then some 30 else some 10)
        (fun _ => .fetched (some "cache/f0".toList)) "m".toList).use_local_files = some true :=
  (large_video_escalates_whole_post ⟨0, 20, "cache".toList, false, true⟩
    ⟨"u".toList, "video".toList, ["a".toList, "b".toList], none, [], false⟩
    (fun i => if i = 0 then some 30 else some 10)
    (fun _ => .fetched (some "cache/f0".toList)) "m".toList
    rfl rfl (by decide) rfl (by decide) (by decide) (by norm_num) (by decide) (by decide)).1

/-- C8 counterexample: for an image item whose destination file already
exists, the second `download_media_to_cache` call still reads the whole
response body over the network (the body is read at downloader.py line 208,
before the existence check at line 216) — the media is re-downloaded, it is
merely not rewritten to disk.  This refutes "the second call does not
re-download". -/
theorem cache_image_rereads_body_counterexample :
    (download_media_to_cache (fun _ _ => ".jpg".toList) ["cache/m_0.jpg".toList]
        "http://x/i.jpg".toList "cache".toList "m".toList 0 false
        (.ok "image/jpeg".toList "BYTES".toList)).body_read = true ∧
    (download_media_to_cache (fun _ _ => ".jpg".toList) ["cache/m_0.jpg".toList]
        "http://x/i.jpg".toList "cache".toList "m".toList 0 false
        (.ok "image/jpeg".toList "BYTES".toList)).wrote = false ∧
    (download_media_to_cache (fun _ _ => ".jpg".toList) ["cache/m_0.jpg".toList]
        "http://x/i.jpg".toList "cache".toList "m".toList 0 false
        (.ok "image/jpeg".toList "BYTES".toList)).path = some "cache/m_0.jpg".toList := by
  decide

/-- C8 amended: when the destination file of the deterministic cache path
already exists, a repeated `download_media_to_cache` call returns the
existing file's path, leaves the filesystem unchanged and writes nothing;
for video items the response body is additionally not read, whereas for
image items the body is fetched before the existence check (and then
discarded). -/
theorem cache_fetch_skips_rewrite (sfx : List Char → List Char → List Char)
    (fs : List (List Char)) (media_url cache_dir media_id : List Char) (index : ℕ)
    (is_video : Bool) (ct body : List Char)
    (hcd : cache_dir ≠ [])
    (hex : fs.contains (pathJoin cache_dir (cacheFilename media_id index
      (if is_video then ".mp4".toList else sfx ct media_url))) = true) :
    (download_media_to_cache sfx fs media_url cache_dir media_id index is_video
        (.ok ct body)).path =
      some (pathJoin cache_dir (cacheFilename media_id index
        (if is_video then ".mp4".toList else sfx ct media_url))) ∧
    (download_media_to_cache sfx fs media_url cache_dir media_id index is_video
        (.ok ct body)).fs = fs ∧
    (download_media_to_cache sfx fs media_url cache_dir media_id index is_video
        (.ok ct body)).wrote = false ∧
    (is_video = true →
      (download_media_to_cache sfx fs media_url cache_dir media_id index is_video
        (.ok ct body)).body_read = false) := by
  unfold download_media_to_cache
  rw [if_neg hcd]
  cases is_video <;> simp_all

/-- Witness for `cache_fetch_skips_rewrite`. -/
theorem cache_fetch_skips_rewrite_witness :
    (download_media_to_cache (fun _ _ => ".jpg".toList) ["cache/m_0.mp4".toList]
        "http://x/v".toList "cache".toList "m".toList 0 true
        (.ok "video/mp4".toList "B".toList)).wrote = false :=
  (cache_fetch_skips_rewrite (fun _ _ => ".jpg".toList) ["cache/m_0.mp4".toList]
    "http://x/v".toList "cache".toList "m".toList 0 true "video/mp4".toList "B".toList
    (by decide) (by decide)).2.2.1

/-- C7 counterexample: when a positive maximum video size is configured
(here 50 MB), a post whose single video probe answers 403 and whose image
candidate succeeds IS accepted with valid media, but the returned metadata
records `has_access_denied = False`: the pre-limit size check
(downloader/manager.py line 580) discards the access-denied flag of the
probe (`video_sizes, _ = ...`), and the direct-link branch does not
re-probe because the size list is non-empty.  This refutes "the
access-denied flag recorded in the returned metadata". -/
theorem forbidden_flag_dropped_counterexample :
    (process_metadata ⟨50, 50, "cache".toList, false⟩ false
        ⟨"u".toList, [["v1".toList]], [["i1".toList]], false⟩
        (fun _ => .tup none (some 403))
        (fun u => if u = "i1".toList then .result (some "p".toList) none else .noResult)
        (fun _ => none) (fun _ => none) "m".toList).has_valid_media = some true ∧
    (process_metadata ⟨50, 50, "cache".toList, false⟩ false
        ⟨"u".toList, [["v1".toList]], [["i1".toList]], false⟩
        (fun _ => .tup none (some 403))
        (fun u => if u = "i1".toList then .result (some "p".toList) none else .noResult)
        (fun _ => none) (fun _ => none) "m".toList).has_access_denied = some false := by
  decide

/-- C7 amended: a 403 probe outcome is a distinguishable signal (the probe
fold maps status 403 to the access-denied flag, not to a generic failure),
and it is recorded in the returned metadata whenever the probing happens in
the direct-link delivery phase — i.e. when no positive maximum size is
configured, so that the pre-limit check (which discards the flag) did not
already consume the probes: then a post with a 403 video probe and a
successful image candidate is accepted-partial with
`has_valid_media = true` and `has_access_denied = true`. -/
theorem forbidden_probe_recorded_in_direct_mode (cfg : Cfg) (meta : MetaIn)
    (probe : ℕ → ProbeOutcome) (fetch : List Char → FetchOutcome)
    (batchEsc imgEsc : ℕ → Option (List Char)) (media_id : List Char)
    (hmax : cfg.max_video_size_mb ≤ 0)
    (hpre : cfg.effective_pre_download = false)
    (hvfd : meta.video_force_download = false)
    (hvu : meta.video_urls ≠ [])
    (hden : (check_video_sizes false meta.video_urls probe).2 = true)
    (himgne : meta.image_urls ≠ [])
    (himg : ((download_images false meta.image_urls true fetch imgEsc).1.any pathTruthy)
      = true) :
    (process_metadata cfg false meta probe fetch batchEsc imgEsc
      media_id).has_access_denied = some true ∧
    (process_metadata cfg false meta probe fetch batchEsc imgEsc
      media_id).has_valid_media = some true ∧
    (process_metadata cfg false meta probe fetch batchEsc imgEsc
      media_id).exceeds_max_size = some false := by
  have hmax' : ¬ (0 < cfg.max_video_size_mb) := not_lt.mpr hmax
  have hchk : ∀ l, check_size_limit cfg.max_video_size_mb l = (false, none, 0) := by
    intro l
    unfold check_size_limit
    rw [if_pos hmax]
  simp [process_metadata, process_metadata_direct, hpre, hvfd, hvu, himgne, hchk,
    hden, himg, hmax']

/-- Witness for `forbidden_probe_recorded_in_direct_mode`. -/
theorem forbidden_probe_recorded_in_direct_mode_witness :
    (process_metadata ⟨0, 50, "cache".toList, false⟩ false
        ⟨"u".toList, [["v1".toList]], [["i1".toList]], false⟩
        (fun _ => .tup none (some 403))
        (fun u => if u = "i1".toList then .result (some "p".toList) none else .noResult)
        (fun _ => none) (fun _ => none) "m".toList).has_access_denied = some true :=
  (forbidden_probe_recorded_in_direct_mode ⟨0, 50, "cache".toList, false⟩
    ⟨"u".toList, [["v1".toList]], [["i1".toList]], false⟩
    (fun _ => .tup none (some 403))
    (fun u => if u = "i1".toList then .result (some "p".toList) none else .noResult)
    (fun _ => none) (fun _ => none) "m".toList
    (by norm_num) rfl rfl (by decide) (by decide) (by decide) (by decide)).1

/-- C3: with a positive configured maximum video size, when the largest
successfully probed size exceeds it the post is rejected as too large:
`exceeds_max_size` is set, no media is considered valid, the failed counts
equal the slot counts, the path list is empty, local files are off — and
the decision is independent of every download oracle (no fetch can
influence it: nothing is downloaded or written). -/
theorem rejected_too_large (cfg : Cfg) (meta : MetaIn)
    (probe : ℕ → ProbeOutcome) (fetch : List Char → FetchOutcome)
    (batchEsc imgEsc : ℕ → Option (List Char)) (media_id : List Char)
    (hmax : 0 < cfg.max_video_size_mb)
    (hvu : meta.video_urls ≠ [])
    (hval : ((check_video_sizes false meta.video_urls probe).1.filterMap id) ≠ [])
    (hbig : cfg.max_video_size_mb <
      pymax ((check_video_sizes false meta.video_urls probe).1.filterMap id)) :
    (process_metadata cfg false meta probe fetch batchEsc imgEsc
      media_id).exceeds_max_size = some true ∧
    (process_metadata cfg false meta probe fetch batchEsc imgEsc
      media_id).has_valid_media = some false ∧
    (process_metadata cfg false meta probe fetch batchEsc imgEsc
      media_id).failed_video_count = some meta.video_urls.length ∧
    (process_metadata cfg false meta probe fetch batchEsc imgEsc
      media_id).failed_image_count = some meta.image_urls.length ∧
    (process_metadata cfg false meta probe fetch batchEsc imgEsc
      media_id).video_count = some meta.video_urls.length ∧
    (process_metadata cfg false meta probe fetch batchEsc imgEsc
      media_id).image_count = some meta.image_urls.length ∧
    (process_metadata cfg false meta probe fetch batchEsc imgEsc
      media_id).file_paths = some [] ∧
    (process_metadata cfg false meta probe fetch batchEsc imgEsc
      media_id).use_local_files = some false ∧
    (∀ (fetch' : List Char → FetchOutcome) (batchEsc' imgEsc' : ℕ → Option (List Char))
      (media_id' : List Char),
      process_metadata cfg false meta probe fetch' batchEsc' imgEsc' media_id' =
        process_metadata cfg false meta probe fetch batchEsc imgEsc media_id) := by
  have hch : check_size_limit cfg.max_video_size_mb
      (check_video_sizes false meta.video_urls probe).1 =
      (true, some (pymax ((check_video_sizes false meta.video_urls probe).1.filterMap id)),
        pysum ((check_video_sizes false meta.video_urls probe).1.filterMap id)) := by
    simp only [check_size_limit]
    rw [if_neg (not_le.mpr hmax), if_neg hval, if_pos hbig]
  refine ⟨?_, ?_, ?_, ?_, ?_, ?_, ?_, ?_, ?_⟩ <;>
    simp [process_metadata, hvu, hmax, hch, create_exceeded_size_metadata, initOut]

/-- Witness for `rejected_too_large`: 50 MB limit, one video slot probing
80 MB — rejected with one failed video and no file written. -/
theorem rejected_too_large_witness :
    (process_metadata ⟨50, 50, "cache".toList, false⟩ false
        ⟨"u".toList, [["v1".toList]], [["i1".toList]], false⟩ (fun _ => .tup (some 80) none)
        (fun _ => .noResult) (fun _ => none) (fun _ => none)
        "m".toList).exceeds_max_size = some true ∧
    (process_metadata ⟨50, 50, "cache".toList, false⟩ false
        ⟨"u".toList, [["v1".toList]], [["i1".toList]], false⟩ (fun _ => .tup (some 80) none)
        (fun _ => .noResult) (fun _ => none) (fun _ => none)
        "m".toList).failed_video_count = some 1 ∧
    (process_metadata ⟨50, 50, "cache".toList, false⟩ false
        ⟨"u".toList, [["v1".toList]], [["i1".toList]], false⟩ (fun _ => .tup (some 80) none)
        (fun _ => .noResult) (fun _ => none) (fun _ => none)
        "m".toList).file_paths = some [] := by
  have h := rejected_too_large ⟨50, 50, "cache".toList, false⟩
    ⟨"u".toList, [["v1".toList]], [["i1".toList]], false⟩ (fun _ => .tup (some 80) none)
    (fun _ => .noResult) (fun _ => none) (fun _ => none) "m".toList
    (by norm_num) (by decide) (by decide) (by decide)
  exact ⟨h.1, h.2.2.1, h.2.2.2.2.2.2.1⟩

set_option maxHeartbeats 2000000 in
/-- C4: with the global maximum video size configured as 0 (unlimited), the
size-limit check never reports a violation and neither manager ever marks a
post as exceeding the limit, whatever the measured sizes are. -/
theorem unlimited_size_never_rejects :
    (∀ (maxq : ℚ) (sizes : List (Option ℚ)), maxq ≤ 0 →
      check_size_limit maxq sizes = (false, none, 0)) ∧
    (∀ (cfg : Cfg) (sd : Bool) (meta : MetaIn) (probe : ℕ → ProbeOutcome)
      (fetch : List Char → FetchOutcome) (bE iE : ℕ → Option (List Char))
      (mid : List Char), cfg.max_video_size_mb = 0 →
      (process_metadata cfg sd meta probe fetch bE iE mid).exceeds_max_size ≠ some true) ∧
    (∀ (cfg : DMCfg) (meta : DMMetaIn) (probe : ℕ → Option ℚ)
      (outcome : ℕ → JobOutcome) (mid : List Char), cfg.max_video_size_mb = 0 →
      (dm_process_metadata cfg meta probe outcome mid).exceeds_max_size ≠ some true) := by
  have hchk : ∀ (maxq : ℚ) (sizes : List (Option ℚ)), maxq ≤ 0 →
      check_size_limit maxq sizes = (false, none, 0) := by
    intro maxq sizes h
    unfold check_size_limit
    rw [if_pos h]
  have hpredownload : ∀ (cfg : Cfg) (meta : MetaIn) (vs : List (Option ℚ))
      (fetch : List Char → FetchOutcome) (bE : ℕ → Option (List Char)) (mid : List Char),
      cfg.max_video_size_mb ≤ 0 →
      (process_metadata_predownload cfg meta vs fetch bE mid).exceeds_max_size = some false := by
    intro cfg meta vs fetch bE mid h0
    have hc : ∀ sizes, check_size_limit cfg.max_video_size_mb sizes = (false, none, 0) :=
      fun sizes => hchk _ sizes h0
    simp only [process_metadata_predownload, hc]
    split_ifs <;> simp_all [predownload_finish]
  have hdirect : ∀ (cfg : Cfg) (sd : Bool) (meta : MetaIn) (vs : List (Option ℚ))
      (probe : ℕ → ProbeOutcome) (fetch : List Char → FetchOutcome)
      (iE : ℕ → Option (List Char)), cfg.max_video_size_mb ≤ 0 →
      (process_metadata_direct cfg sd meta vs probe fetch iE).exceeds_max_size = some false := by
    intro cfg sd meta vs probe fetch iE h0
    have hc : ∀ sizes, check_size_limit cfg.max_video_size_mb sizes = (false, none, 0) :=
      fun sizes => hchk _ sizes h0
    simp only [process_metadata_direct, hc]
    split_ifs <;> simp_all
  refine ⟨hchk, ?_, ?_⟩
  · intro cfg sd meta probe fetch bE iE mid h0
    have hle := le_of_eq h0
    have hlt : ¬ (0 < cfg.max_video_size_mb) := not_lt.mpr hle
    have hc0 : check_size_limit cfg.max_video_size_mb [] = (false, none, 0) := hchk _ _ hle
    simp only [process_metadata,
      if_neg (fun hand : meta.video_urls ≠ [] ∧ 0 < cfg.max_video_size_mb => hlt hand.2),
      hc0]
    split_ifs with h1 h2 h3
    · simp [initOut]
    · simp at h2
    · rw [hpredownload _ _ _ _ _ _ hle]
      simp
    · rw [hdirect _ _ _ _ _ _ _ hle]
      simp
  · intro cfg meta probe outcome mid h0
    have hdec : (decide (0 < cfg.max_video_size_mb)) = false := by
      rw [h0]
      norm_num
    simp only [dm_process_metadata, hdec, Bool.false_and]
    split_ifs <;> simp_all [dmInitOut, dm_video_stats, dm_zero_video_stats]

/-- Witness for `unlimited_size_never_rejects`. -/
theorem unlimited_size_never_rejects_witness :
    check_size_limit 0 [some 5000] = (false, none, 0) ∧
    (process_metadata ⟨0, 50, "cache".toList, false⟩ false
        ⟨"u".toList, [["v".toList]], [], false⟩ (fun _ => .tup (some 5000) none)
        (fun _ => .noResult) (fun _ => none) (fun _ => none)
        "m".toList).exceeds_max_size ≠ some true :=
  ⟨unlimited_size_never_rejects.1 0 [some 5000] le_rfl,
   unlimited_size_never_rejects.2.1 ⟨0, 50, "cache".toList, false⟩ false
     ⟨"u".toList, [["v".toList]], [], false⟩ (fun _ => .tup (some 5000) none)
     (fun _ => .noResult) (fun _ => none) (fun _ => none) "m".toList rfl⟩

theorem pre_download_media_get? (items : List MediaItem) (cache_dir : List Char)
    (outcome : ℕ → JobOutcome) (hcd : cache_dir ≠ []) (hne : items ≠ []) (i : ℕ) :
    (pre_download_media items cache_dir outcome).get? i =
      (items.get? i).map (fun it => processOne items i (download_one it (outcome i))) := by
  unfold pre_download_media
  rw [if_neg (not_or.mpr ⟨hcd, hne⟩)]
  exact get?_enum_map _ _ _

theorem batch_download_media_length (items : List MediaItem2) (cache_dir : List Char)
    (fetch : List Char → FetchOutcome) (esc : ℕ → Option (List Char))
    (hcd : cache_dir ≠ []) (hne : items ≠ []) :
    (batch_download_media items cache_dir fetch esc).length = items.length := by
  unfold batch_download_media process_gather_results
  rw [if_neg (not_or.mpr ⟨hcd, hne⟩)]
  simp

theorem batch_download_media_get? (items : List MediaItem2) (cache_dir : List Char)
    (fetch : List Char → FetchOutcome) (esc : ℕ → Option (List Char))
    (hcd : cache_dir ≠ []) (hne : items ≠ []) (i : ℕ) :
    (batch_download_media items cache_dir fetch esc).get? i =
      (items.get? i).map (fun it =>
        match esc i with
        | some m =>
          { url := it.url_list.head?, file_path := none, size_mb := none,
            success := false, index := it.index, error := some m }
        | none => batch_download_one fetch it) := by
  unfold batch_download_media process_gather_results
  rw [if_neg (not_or.mpr ⟨hcd, hne⟩)]
  rw [get?_enum_map, get?_enum_map]
  cases hit : items.get? i with
  | none => rfl
  | some it =>
    have hit' : items[i]? = some it := by simpa using hit
    cases hesc : esc i <;> simp [hit', hesc]

theorem processOne_fields (items : List MediaItem) (i : ℕ) (it : MediaItem)
    (hit : items.get? i = some it) (o : JobOutcome) :
    (processOne items i (download_one it o)).index = it.index ∧
    (processOne items i (download_one it o)).url = it.url := by
  have hit' : items[i]? = some it := by simpa using hit
  cases o with
  | escaped m => simp [processOne, download_one, hit']
  | raised m => simp [processOne, download_one]
  | fetched fp =>
    by_cases hf : urlFalsy it.url = true
    · simp [processOne, download_one, hf]
    · simp [processOne, download_one, hf]

theorem processOne_failure (items : List MediaItem) (i : ℕ) (it : MediaItem)
    (hit : items.get? i = some it) (m : List Char) (o : JobOutcome)
    (ho : o = .raised m ∨ o = .escaped m) :
    (processOne items i (download_one it o)).success = false ∧
    (processOne items i (download_one it o)).file_path = none ∧
    (processOne items i (download_one it o)).error = some m := by
  have hit' : items[i]? = some it := by simpa using hit
  rcases ho with rfl | rfl <;> simp [processOne, download_one, hit']

theorem batch_download_one_fields (fetch : List Char → FetchOutcome) (it : MediaItem2) :
    (batch_download_one fetch it).index = it.index ∧
    (batch_download_one fetch it).url = it.url_list.head? := by
  unfold batch_download_one
  split
  · rename_i hl
    simp [hl]
  · cases scanCandidates fetch it.url_list <;> simp

theorem scanCandidates_congr (fetch fetch' : List Char → FetchOutcome)
    (l : List (List Char)) (h : ∀ u ∈ l, fetch u = fetch' u) :
    scanCandidates fetch l = scanCandidates fetch' l := by
  induction l with
  | nil => rfl
  | cons u rest ih =>
    have hu : fetch u = fetch' u := h u (List.mem_cons_self _ _)
    have ih' := ih (fun v hv => h v (List.mem_cons_of_mem _ hv))
    simp only [scanCandidates, hu, ih']

/-- C1: the batch executors preserve batch shape and positional identity,
convert per-job exceptions into structured in-place failure results, and a
job's result depends only on its own job and its own environment outcome —
sibling jobs cannot alter it.  Proved for `pre_download_media`
(downloader.py) and `_batch_download_media` (downloader/manager.py). -/
theorem batch_executor_index_preserving
    (items : List MediaItem) (items2 : List MediaItem2) (cache_dir : List Char)
    (outcome : ℕ → JobOutcome) (fetch : List Char → FetchOutcome)
    (esc : ℕ → Option (List Char))
    (hcd : cache_dir ≠ []) (hne : items ≠ []) (hne2 : items2 ≠ []) :
    (pre_download_media items cache_dir outcome).length = items.length ∧
    (batch_download_media items2 cache_dir fetch esc).length = items2.length ∧
    (∀ i, i < items.length →
      ((pre_download_media items cache_dir outcome).getD i default).index =
        (items.getD i default).index ∧
      ((pre_download_media items cache_dir outcome).getD i default).url =
        (items.getD i default).url) ∧
    (∀ i, i < items2.length →
      ((batch_download_media items2 cache_dir fetch esc).getD i default).index =
        (items2.getD i default).index ∧
      ((batch_download_media items2 cache_dir fetch esc).getD i default).url =
        (items2.getD i default).url_list.head?) ∧
    (∀ i m, i < items.length → (outcome i = .raised m ∨ outcome i = .escaped m) →
      ((pre_download_media items cache_dir outcome).getD i default).success = false ∧
      ((pre_download_media items cache_dir outcome).getD i default).file_path = none ∧
      ((pre_download_media items cache_dir outcome).getD i default).error = some m) ∧
    (∀ i m, i < items2.length → esc i = some m →
      ((batch_download_media items2 cache_dir fetch esc).getD i default).success = false ∧
      ((batch_download_media items2 cache_dir fetch esc).getD i default).file_path = none ∧
      ((batch_download_media items2 cache_dir fetch esc).getD i default).error = some m) ∧
    (∀ (outcome' : ℕ → JobOutcome) (i : ℕ), outcome i = outcome' i →
      (pre_download_media items cache_dir outcome).get? i =
        (pre_download_media items cache_dir outcome').get? i) ∧
    (∀ (fetch' : List Char → FetchOutcome) (esc' : ℕ → Option (List Char)) (i : ℕ),
      esc i = esc' i →
      (∀ u ∈ (items2.getD i default).url_list, fetch u = fetch' u) →
      (batch_download_media items2 cache_dir fetch esc).get? i =
        (batch_download_media items2 cache_dir fetch' esc').get? i) := by
  refine ⟨pre_download_media_length items cache_dir outcome hcd hne,
    batch_download_media_length items2 cache_dir fetch esc hcd hne2, ?_, ?_, ?_, ?_, ?_, ?_⟩
  · intro i hi
    have hit : items.get? i = some (items.get ⟨i, hi⟩) := List.get?_eq_get hi
    rw [List.getD_eq_get?, List.getD_eq_get?, pre_download_media_get? _ _ _ hcd hne, hit]
    have h := processOne_fields items i _ hit (outcome i)
    simpa using h
  · intro i hi
    have hit : items2.get? i = some (items2.get ⟨i, hi⟩) := List.get?_eq_get hi
    rw [List.getD_eq_get?, List.getD_eq_get?, batch_download_media_get? _ _ _ _ hcd hne2, hit]
    cases hesc : esc i with
    | some m => simp [hesc]
    | none =>
      have h := batch_download_one_fields fetch (items2.get ⟨i, hi⟩)
      simpa [hesc] using h
  · intro i m hi ho
    have hit : items.get? i = some (items.get ⟨i, hi⟩) := List.get?_eq_get hi
    rw [List.getD_eq_get?, pre_download_media_get? _ _ _ hcd hne, hit]
    have h := processOne_failure items i _ hit m (outcome i) ho
    simpa using h
  · intro i m hi hesc
    have hit : items2.get? i = some (items2.get ⟨i, hi⟩) := List.get?_eq_get hi
    rw [List.getD_eq_get?, batch_download_media_get? _ _ _ _ hcd hne2, hit, hesc]
    simp
  · intro outcome' i hagree
    rw [pre_download_media_get? _ _ _ hcd hne, pre_download_media_get? _ _ _ hcd hne, hagree]
  · intro fetch' esc' i hesc hfet
    rw [batch_download_media_get? _ _ _ _ hcd hne2, batch_download_media_get? _ _ _ _ hcd hne2,
      ← hesc]
    cases hit : items2.get? i with
    | none => rfl
    | some it =>
      have hfet' : ∀ u ∈ it.url_list, fetch u = fetch' u := by
        intro u hu
        apply hfet
        rw [List.getD_eq_get?, hit]
        exact hu
      cases hesc2 : esc i with
      | some m => simp [hesc2]
      | none =>
        have hbc : batch_download_one fetch it = batch_download_one fetch' it := by
          unfold batch_download_one
          rw [scanCandidates_congr fetch fetch' it.url_list hfet']
        simp [hesc2, hbc]

/-- Witness for `batch_executor_index_preserving`. -/
theorem batch_executor_index_preserving_witness :
    (pre_download_media [⟨some "u".toList, "m".toList, 0, true⟩] "cache".toList
      (fun _ => .raised "boom".toList)).length = 1 ∧
    ((pre_download_media [⟨some "u".toList, "m".toList, 0, true⟩] "cache".toList
      (fun _ => .raised "boom".toList)).getD 0 default).success = false := by
  have h := batch_executor_index_preserving
    [⟨some "u".toList, "m".toList, 0, true⟩] [⟨["a".toList], "m".toList, 0, true⟩]
    "cache".toList (fun _ => .raised "boom".toList) (fun _ => .noResult) (fun _ => none)
    (by decide) (by decide) (by decide)
  exact ⟨h.1, (h.2.2.2.2.1 0 "boom".toList (by decide) (Or.inl rfl)).1⟩

theorem scanCandidates_exhausted_iff (fetch : List Char → FetchOutcome)
    (l : List (List Char)) (hnr : ∀ u ∈ l, ∀ m, fetch u ≠ .raised m) :
    scanCandidates fetch l = .exhausted ↔ ∀ u ∈ l, candHit (fetch u) = false := by
  induction l with
  | nil => simp [scanCandidates]
  | cons u rest ih =>
    have ihr := ih (fun v hv => hnr v (List.mem_cons_of_mem _ hv))
    cases hf : fetch u with
    | raised m => exact absurd hf (hnr u (List.mem_cons_self _ _) m)
    | noResult => simp [scanCandidates, hf, candHit, ihr]
    | result fp sz =>
      cases fp with
      | none => simp [scanCandidates, hf, candHit, ihr]
      | some p =>
        by_cases hp : p = []
        · simp [scanCandidates, hf, hp, candHit, ihr]
        · simp [scanCandidates, hf, hp, candHit, ihr]

theorem scanCandidates_no_exn (fetch : List Char → FetchOutcome)
    (l : List (List Char)) (hnr : ∀ u ∈ l, ∀ m, fetch u ≠ .raised m) (m : List Char) :
    scanCandidates fetch l ≠ .exn m := by
  induction l with
  | nil => simp [scanCandidates]
  | cons u rest ih =>
    have ihr := ih (fun v hv => hnr v (List.mem_cons_of_mem _ hv))
    cases hf : fetch u with
    | raised m' => exact absurd hf (hnr u (List.mem_cons_self _ _) m')
    | noResult => simpa [scanCandidates, hf] using ihr
    | result fp sz =>
      cases fp with
      | none => simpa [scanCandidates, hf] using ihr
      | some p =>
        by_cases hp : p = []
        · simpa [scanCandidates, hf, hp] using ihr
        · simp [scanCandidates, hf, hp]

theorem scanCandidates_first_hit (fetch : List Char → FetchOutcome) :
    ∀ (l : List (List Char)) (i : ℕ) (u : List Char),
    l.get? i = some u → candHit (fetch u) = true →
    (∀ j v, j < i → l.get? j = some v →
      candHit (fetch v) = false ∧ ∀ m, fetch v ≠ .raised m) →
    (∃ p sz, fetch u = .result (some p) sz ∧ p ≠ [] ∧
      scanCandidates fetch l = .hit p sz ∧ hitPath (fetch u) = some p) ∧
    attemptedCandidates fetch l = l.take (i + 1) := by
  intro l
  induction l with
  | nil => intro i u hu; simp at hu
  | cons u0 rest ih =>
    intro i u hu hhit hbefore
    cases i with
    | zero =>
      have hu0 : u = u0 := by simpa using hu.symm
      subst hu0
      cases hf : fetch u with
      | raised m => rw [hf] at hhit; simp [candHit] at hhit
      | noResult => rw [hf] at hhit; simp [candHit] at hhit
      | result fp sz =>
        cases fp with
        | none => rw [hf] at hhit; simp [candHit] at hhit
        | some p =>
          have hp : p ≠ [] := by
            rw [hf] at hhit
            simpa [candHit] using hhit
          refine ⟨⟨p, sz, rfl, hp, ?_, ?_⟩, ?_⟩
          · simp [scanCandidates, hf, hp]
          · simp [hitPath, hp]
          · simp [attemptedCandidates, hf, hp]
    | succ j =>
      have hfirst := hbefore 0 u0 (Nat.succ_pos j) rfl
      have hrest := ih j u (by simpa using hu) hhit
        (fun k v hk hv => hbefore (k + 1) v (Nat.succ_lt_succ hk) (by simpa using hv))
      have hscan : scanCandidates fetch (u0 :: rest) = scanCandidates fetch rest := by
        cases hf : fetch u0 with
        | raised m => exact absurd hf (hfirst.2 m)
        | noResult => simp [scanCandidates, hf]
        | result fp sz =>
          cases fp with
          | none => simp [scanCandidates, hf]
          | some p =>
            have hp : p = [] := by
              by_contra hp
              rw [hf] at hfirst
              simp [candHit, hp] at hfirst
            simp [scanCandidates, hf, hp]
      have hatt : attemptedCandidates fetch (u0 :: rest) =
          u0 :: attemptedCandidates fetch rest := by
        cases hf : fetch u0 with
        | raised m => exact absurd hf (hfirst.2 m)
        | noResult => simp [attemptedCandidates, hf]
        | result fp sz =>
          cases fp with
          | none => simp [attemptedCandidates, hf]
          | some p =>
            have hp : p = [] := by
              by_contra hp
              rw [hf] at hfirst
              simp [candHit, hp] at hfirst
            simp [attemptedCandidates, hf, hp]
      obtain ⟨⟨p, sz, hf, hp, hsc, hpath⟩, hat⟩ := hrest
      refine ⟨⟨p, sz, hf, hp, ?_, hpath⟩, ?_⟩
      · rw [hscan, hsc]
      · rw [hatt, hat]
        rfl

/-- C2: the candidate fallback loops (`_download_one_image` and the inner
`download_one` of `_batch_download_media`) report failure iff every
candidate URL failed, and on success they use the first candidate in list
order that yielded a truthy file path — the attempted-candidate trace stops
right at that first success, so no later candidate is tried.  The fetch
outcome of each candidate is success or failure (the router's handlers
catch their own exceptions and return `None`), expressed by `hnr`. -/
theorem candidate_fetcher_first_success
    (fetch : List Char → FetchOutcome) (l : List (List Char))
    (media_id : List Char) (idx : ℕ) (isv : Bool)
    (hnr : ∀ u ∈ l, ∀ m, fetch u ≠ .raised m) :
    (download_one_image fetch l = .ok none ↔ ∀ u ∈ l, candHit (fetch u) = false) ∧
    ((batch_download_one fetch ⟨l, media_id, idx, isv⟩).success = false ↔
      ∀ u ∈ l, candHit (fetch u) = false) ∧
    (∀ i u, l.get? i = some u → candHit (fetch u) = true →
      (∀ j v, j < i → l.get? j = some v → candHit (fetch v) = false) →
      download_one_image fetch l = .ok (hitPath (fetch u)) ∧
      (batch_download_one fetch ⟨l, media_id, idx, isv⟩).success = true ∧
      (batch_download_one fetch ⟨l, media_id, idx, isv⟩).file_path = hitPath (fetch u) ∧
      attemptedCandidates fetch l = l.take (i + 1)) := by
  refine ⟨?_, ?_, ?_⟩
  · by_cases hl : l = []
    · subst hl
      simp [download_one_image]
    · unfold download_one_image
      rw [if_neg hl, ← scanCandidates_exhausted_iff fetch l hnr]
      cases hs : scanCandidates fetch l with
      | hit p sz => simp
      | exn m => exact absurd hs (scanCandidates_no_exn fetch l hnr m)
      | exhausted => simp
  · by_cases hl : l = []
    · subst hl
      simp [batch_download_one]
    · unfold batch_download_one
      rw [← scanCandidates_exhausted_iff fetch l hnr]
      cases hs : scanCandidates fetch l with
      | hit p sz => simp [hl, hs]
      | exn m => exact absurd hs (scanCandidates_no_exn fetch l hnr m)
      | exhausted => simp [hl, hs]
  · intro i u hu hhit hbefore
    have hl : l ≠ [] := by
      intro h
      subst h
      simp at hu
    obtain ⟨⟨p, sz, hf, hp, hsc, hpath⟩, hat⟩ :=
      scanCandidates_first_hit fetch l i u hu hhit
        (fun j v hj hv => ⟨hbefore j v hj hv, fun m => hnr v (List.get?_mem hv) m⟩)
    refine ⟨?_, ?_, ?_, hat⟩
    · simp [download_one_image, hl, hsc, hpath]
    · simp [batch_download_one, hl, hsc]
    · simp [batch_download_one, hl, hsc, hpath]

/-- Witness for `candidate_fetcher_first_success`: with candidates a, b, c
where only b succeeds, the loop returns b's path and attempts only a, b. -/
theorem candidate_fetcher_first_success_witness :
    download_one_image
      (fun u => if u = "b".toList then .result (some "p".toList) none else .noResult)
      ["a".toList, "b".toList, "c".toList] = .ok (some "p".toList) ∧
    attemptedCandidates
      (fun u => if u = "b".toList then .result (some "p".toList) none else .noResult)
      ["a".toList, "b".toList, "c".toList] = ["a".toList, "b".toList] := by
  have h := (candidate_fetcher_first_success
    (fun u => if u = "b".toList then .result (some "p".toList) none else .noResult)
    ["a".toList, "b".toList, "c".toList] "m".toList 0 true
    (by
      intro u hu m h
      fin_cases hu <;> simp at h)).2.2 1 "b".toList
    (by decide) (by decide)
    (fun j v hj hv => by
      have hj0 : j = 0 := by omega
      subst hj0
      have hv' : v = "a".toList := by simpa using hv.symm
      subst hv'
      decide)
  refine ⟨?_, ?_⟩
  · rw [h.1]
    rfl
  · rw [h.2.2.2]
    rfl
